import Mathlib

/-!
# Verification of the podcast_ai_pipeline core

A shallow embedding, in Lean 4, of the dialogue-extraction, TTS-backend,
voice-download and audio-assembly logic of the `podcast_ai_pipeline`
repository, together with theorems settling the specification claims.

Python strings are modelled as `List Char`.  The embedding covers the
ASCII fragment of Python's string semantics (whitespace, lower-casing,
digits), which is the fragment exercised by the parser's patterns and by
all inputs appearing in the spec.
-/

namespace Podcast

/-! ## Python string primitives (ASCII fragment) -/

/-- The characters `str.strip()` / regex `\s` treat as whitespace
(ASCII fragment of Python's definition). -/
def isPySpace (c : Char) : Bool :=
  c = ' ' || c = '\t' || c = '\n' || c = '\r' || c = '\x0b' || c = '\x0c'

/-- `str.strip()` with no argument: remove leading and trailing whitespace. -/
def pyStrip (l : List Char) : List Char :=
  ((l.dropWhile isPySpace).reverse.dropWhile isPySpace).reverse

/-- `str.strip(ch)`: remove leading and trailing occurrences of `ch`. -/
def pyStripChar (ch : Char) (l : List Char) : List Char :=
  ((l.dropWhile (· = ch)).reverse.dropWhile (· = ch)).reverse

/-- Python's `needle in hay` substring test. -/
def pyIn (needle : List Char) : List Char → Bool
  | [] => needle.isEmpty
  | c :: t => needle.isPrefixOf (c :: t) || pyIn needle t

/-- `str.lower()` (ASCII fragment). -/
def pyLower (l : List Char) : List Char := l.map Char.toLower

/-- `str.isdigit()` (ASCII fragment): non-empty and all digits. -/
def pyIsDigit (l : List Char) : Bool := !l.isEmpty && l.all Char.isDigit

/-- Line-break characters recognised by `str.splitlines`, with `'\r'`
handled separately so that `"\r\n"` counts as a single break. -/
def isLineBreak (c : Char) : Bool :=
  c = '\n' || c = '\x0b' || c = '\x0c' || c = '\x1c' || c = '\x1d' ||
  c = '\x1e' || c = '\x85' || c = '\u2028' || c = '\u2029'

/-- Worker for `pySplitlines`: accumulate the current (reversed) line. -/
def splitlinesAux : List Char → List Char → List (List Char)
  | [], acc => if acc.isEmpty then [] else [acc.reverse]
  | '\r' :: '\n' :: t, acc => acc.reverse :: splitlinesAux t []
  | '\r' :: t, acc => acc.reverse :: splitlinesAux t []
  | c :: t, acc =>
    if isLineBreak c then acc.reverse :: splitlinesAux t []
    else splitlinesAux t (c :: acc)

/-- `str.splitlines()`: split at line boundaries, no trailing empty line. -/
def pySplitlines (l : List Char) : List (List Char) :=
  match l with
  | [] => []
  | _ => splitlinesAux l []

/-! ## ScriptParser (src/core/script_parser.py)

`validate_and_preview_script` iterates over the stripped lines of the
script, skips obvious non-dialogue lines, tries three regex patterns in
order, keeps a matched line only when its speaker is one of the expected
speakers and the cleaned text is valid dialogue, and finally raises
(`Option.none` here) when nothing was collected.  The preview/debug
printing of the source is I/O only and does not affect the returned
value, so it is not modelled. -/

/-- Regex class `[A-Z]`. -/
def isUpperAZ (c : Char) : Bool := 'A' ≤ c && c ≤ 'Z'

/-- Regex class `[a-z]`. -/
def isLowerAZ (c : Char) : Bool := 'a' ≤ c && c ≤ 'z'

/-- Regex class `[0-9]`. -/
def isDigit09 (c : Char) : Bool := '0' ≤ c && c ≤ '9'

/-- Regex class `[A-Z0-9_]`. -/
def isUpperWord (c : Char) : Bool := isUpperAZ c || isDigit09 c || c = '_'

/-- Regex class `[A-Za-z0-9_]`. -/
def isAnyWord (c : Char) : Bool :=
  isUpperAZ c || isLowerAZ c || isDigit09 c || c = '_'

/-- `re.match` for a pattern of shape `^(F R*)\s*:\s*(.*)` where `F`,`R`
are character classes.  Because the classes `R`, `\s` and `:` are
pairwise disjoint, the greedy backtracking search of Python's `re` is
equivalent to this maximal-munch scan.  Covers the source's patterns
`^([A-Z][A-Z0-9_]*)\s*:\s*(.*)` and `^([A-Za-z][A-Za-z0-9_]*)\s*:\s*(.*)`. -/
def matchSpeakerColon (firstClass restClass : Char → Bool) (line : List Char) :
    Option (List Char × List Char) :=
  match line with
  | [] => none
  | c :: rest =>
    if firstClass c then
      let name := c :: rest.takeWhile restClass
      let r1 := (rest.dropWhile restClass).dropWhile isPySpace
      match r1 with
      | ':' :: r2 => some (name, r2.dropWhile isPySpace)
      | _ => none
    else none

/-- First source pattern: `^([A-Z][A-Z0-9_]*)\s*:\s*(.*)`. -/
def matchPattern1 (line : List Char) : Option (List Char × List Char) :=
  matchSpeakerColon isUpperAZ isUpperWord line

/-- Second source pattern: `^([A-Za-z][A-Za-z0-9_]*)\s*:\s*(.*)`. -/
def matchPattern2 (line : List Char) : Option (List Char × List Char) :=
  matchSpeakerColon (fun c => isUpperAZ c || isLowerAZ c) isAnyWord line

/-- Greedy `\*?\*?`: consume up to two leading asterisks. -/
def dropUpTo2Stars : List Char → List Char
  | '*' :: '*' :: t => t
  | '*' :: t => t
  | t => t

/-- Third source pattern: `^\*?\*?([A-Z][A-Z0-9_]*)\*?\*?\s*:\s*(.*)`.
Again all adjacent classes are disjoint, so greedy maximal munch is
exactly Python's behaviour. -/
def matchPattern3 (line : List Char) : Option (List Char × List Char) :=
  match dropUpTo2Stars line with
  | [] => none
  | c :: rest =>
    if isUpperAZ c then
      let name := c :: rest.takeWhile isUpperWord
      let r1 := dropUpTo2Stars (rest.dropWhile isUpperWord)
      let r2 := r1.dropWhile isPySpace
      match r2 with
      | ':' :: r3 => some (name, r3.dropWhile isPySpace)
      | _ => none
    else none

/-- The source's `skip_patterns` list, disjoined (the source applies
`any(pattern(line) for pattern in self.skip_patterns)`). -/
def shouldSkipLine (line : List Char) : Bool :=
  "```".data.isPrefixOf line ||                       -- Code blocks
  "-".data.isPrefixOf line ||                         -- Bullet points
  "*".data.isPrefixOf line ||                         -- Markdown lists
  "#".data.isPrefixOf line ||                         -- Headers
  "(".data.isPrefixOf line ||                         -- Parenthetical notes
  "[".data.isPrefixOf line ||                         -- Brackets
  "<".data.isPrefixOf line ||                         -- XML/HTML tags
  "\x7b".data.isPrefixOf line ||                      -- JSON-like content
  pyIn "def ".data line ||                            -- Function definitions
  pyIn "return".data line ||                          -- Code returns
  "text:".data.isPrefixOf line ||                     -- Common GPT tag
  "speaker:".data.isPrefixOf line ||                  -- Speaker metadata
  "voice:".data.isPrefixOf line ||                    -- Voice metadata
  pyIn "transcript:".data (pyLower line) ||           -- Transcript labels
  pyIn "dialogue:".data (pyLower line) ||             -- Dialogue labels
  (pyStrip line == "```".data || pyStrip line == "---".data ||
   pyStrip line == "===".data || pyStrip line == "***".data) || -- Separators
  "Note:".data.isPrefixOf line ||                     -- Notes
  "Example:".data.isPrefixOf line ||                  -- Examples
  pyIn "OUTPUT:".data line ||                         -- Output labels
  pyIn "INPUT:".data line ||                          -- Input labels
  decide ((pyStrip line).length < 3) ||               -- Very short lines
  pyIsDigit line ||                                   -- Just numbers
  "//".data.isPrefixOf line                           -- Comments

/-- The source's `text_prefixes_to_remove` list, in order. -/
def textPrefixesToRemove : List (List Char) :=
  ["text:".data, "Text:".data, "TEXT:".data,
   "```text".data, "```Text".data, "```TEXT".data,
   "```".data, "text".data, "TEXT".data,
   "voice:".data, "Voice:".data, "VOICE:".data,
   "speaker:".data, "Speaker:".data, "SPEAKER:".data,
   "dialogue:".data, "Dialogue:".data, "DIALOGUE:".data,
   "says:".data, "Says:".data, "SAYS:".data,
   "speaks:".data, "Speaks:".data, "SPEAKS:".data,
   "output:".data, "Output:".data, "OUTPUT:".data,
   "response:".data, "Response:".data, "RESPONSE:".data]

/-- `_clean_dialogue_text`: strip, then remove the first matching prefix
of `text_prefixes_to_remove` (the source loop breaks after one removal)
and strip again. -/
def cleanDialogueText (text : List Char) : List Char :=
  let text := pyStrip text
  match textPrefixesToRemove.find? (fun p => p.isPrefixOf text) with
  | some p => pyStrip (text.drop p.length)
  | none => text

/-- `_is_valid_dialogue`'s `invalid_content` list. -/
def invalidContent : List (List Char) :=
  ["text".data, "voice".data, "speaker".data, "dialogue".data,
   "says".data, "speaks".data, "...".data, "---".data, "***".data,
   "```".data]

/-- `_is_valid_dialogue`: non-empty, not a known artifact token, and at
least 5 characters long. -/
def isValidDialogue (text : List Char) : Bool :=
  if text.isEmpty then false
  else if invalidContent.contains (pyLower text) || text.length < 5 then false
  else true

/-- One pattern attempt of the inner loop of
`validate_and_preview_script`: the pattern must match, the captured
speaker (after `strip("*").strip()`) must be an expected speaker, and
the cleaned text must be valid dialogue; otherwise the loop falls
through to the next pattern. -/
def applyPattern (p : List Char → Option (List Char × List Char))
    (line : List Char) (expected : List (List Char)) :
    Option (List Char × List Char) :=
  match p line with
  | none => none
  | some (sp, tx) =>
    let sp := pyStrip (pyStripChar '*' sp)
    if expected.contains sp then
      let tx := cleanDialogueText tx
      if isValidDialogue tx then some (sp, tx) else none
    else none

/-- The `for pattern in self.patterns` loop: first pattern that yields
an accepted dialogue pair wins. -/
def matchLine (line : List Char) (expected : List (List Char)) :
    Option (List Char × List Char) :=
  match applyPattern matchPattern1 line expected with
  | some r => some r
  | none =>
    match applyPattern matchPattern2 line expected with
    | some r => some r
    | none => applyPattern matchPattern3 line expected

/-- The body of the line loop of `validate_and_preview_script`: strip
the physical line, drop it when blank or skipped, otherwise append the
accepted dialogue pair, if any.  (`unmatched_lines` only feeds the
printed preview.) -/
def parseStep (expected : List (List Char))
    (acc : List (List Char × List Char)) (rawLine : List Char) :
    List (List Char × List Char) :=
  if (pyStrip rawLine).isEmpty then acc
  else if shouldSkipLine (pyStrip rawLine) then acc
  else
    match matchLine (pyStrip rawLine) expected with
    | some r => acc ++ [r]
    | none => acc

/-- The line loop of `validate_and_preview_script`. -/
def parseDialogueLines (script : List Char) (expected : List (List Char)) :
    List (List Char × List Char) :=
  (pySplitlines script).foldl (parseStep expected) []

/-- `validate_and_preview_script`: returns the parsed dialogue lines, or
`none` for the `RuntimeError("No parseable dialogue lines found …")`
raised when the collected list is empty. -/
def validate_and_preview_script (script : List Char)
    (expected : List (List Char)) : Option (List (List Char × List Char)) :=
  let d := parseDialogueLines script expected
  if d.isEmpty then none else some d

/-! ## clean_text_for_tts (src/tts/base.py)

`TTSEngine.clean_text_for_tts` is a chain of `re.sub` passes.  Every
pattern in the chain consumes at least one character and is built from
pairwise-disjoint adjacent character classes, so Python's leftmost,
greedy, backtracking `re.sub` is equivalent to the deterministic
maximal-munch scans below.  `reSub` is the shared `re.sub` driver: scan
left to right, replace each match, continue after the replaced span. -/

/-- One `re.sub` pass.  `f` attempts a match at the head of the list and
returns (replacement, rest-after-match); every `f` used below consumes
at least one character on success, so the input length is enough fuel. -/
def reSubAux (f : List Char → Option (List Char × List Char)) :
    Nat → List Char → List Char
  | 0, l => l
  | _ + 1, [] => []
  | fuel + 1, c :: cs =>
    match f (c :: cs) with
    | some (rep, rest) => rep ++ reSubAux f fuel rest
    | none => c :: reSubAux f fuel cs

/-- `re.sub(pattern, repl, text)` for the single-position matchers used
by `clean_text_for_tts`. -/
def reSub (f : List Char → Option (List Char × List Char))
    (l : List Char) : List Char :=
  reSubAux f l.length l

/-- Match a literal (given lowercase) case-insensitively, returning the
rest of the input. -/
def matchLitCI : List Char → List Char → Option (List Char)
  | [], l => some l
  | _ :: _, [] => none
  | c :: cs, d :: ds => if d.toLower = c then matchLitCI cs ds else none

/-- Match a literal exactly, returning the rest of the input. -/
def matchLit : List Char → List Char → Option (List Char)
  | [], l => some l
  | _ :: _, [] => none
  | c :: cs, d :: ds => if d = c then matchLit cs ds else none

/-- `\*\*\s*/?TAG[^*]*\*\*` (IGNORECASE), replaced by the empty string;
used with TAG = `prosody` and TAG = `procity`. -/
def matchBrokenSsmlStars (tag : List Char) (l : List Char) :
    Option (List Char × List Char) :=
  match matchLit "**".data l with
  | none => none
  | some r1 =>
    let r2 := r1.dropWhile isPySpace
    let r3 := match r2 with | '/' :: t => t | t => t
    match matchLitCI tag r3 with
    | none => none
    | some r4 =>
      match matchLit "**".data (r4.dropWhile (· ≠ '*')) with
      | none => none
      | some r5 => some ([], r5)

/-- `</?TAG[^>]*>` (IGNORECASE), replaced by the empty string; used with
TAG = `prosody` and TAG = `speak`. -/
def matchXmlTag (tag : List Char) (l : List Char) :
    Option (List Char × List Char) :=
  match l with
  | '<' :: r1 =>
    let r2 := match r1 with | '/' :: t => t | t => t
    match matchLitCI tag r2 with
    | none => none
    | some r3 =>
      match r3.dropWhile (· ≠ '>') with
      | '>' :: r4 => some ([], r4)
      | _ => none
  | _ => none

/-- `\*\*([^*]+)\*\*` replaced by the captured group (`**bold** -> bold`). -/
def matchBold (l : List Char) : Option (List Char × List Char) :=
  match l with
  | '*' :: '*' :: r1 =>
    let grp := r1.takeWhile (· ≠ '*')
    if grp.isEmpty then none
    else
      match r1.dropWhile (· ≠ '*') with
      | '*' :: '*' :: r2 => some (grp, r2)
      | _ => none
  | _ => none

/-- `\*([^*]+)\*` replaced by the captured group (`*italic* -> italic`). -/
def matchItalic (l : List Char) : Option (List Char × List Char) :=
  match l with
  | '*' :: r1 =>
    let grp := r1.takeWhile (· ≠ '*')
    if grp.isEmpty then none
    else
      match r1.dropWhile (· ≠ '*') with
      | '*' :: r2 => some (grp, r2)
      | _ => none
  | _ => none

/-- The backquote character (code point 96). -/
def backquote : Char := Char.ofNat 96

/-- The backquote-code pattern replaced by the captured group
(inline code span markers removed). -/
def matchCodeSpan (l : List Char) : Option (List Char × List Char) :=
  match l with
  | c :: r1 =>
    if c = backquote then
      let grp := r1.takeWhile (· ≠ backquote)
      if grp.isEmpty then none
      else
        match r1.dropWhile (· ≠ backquote) with
        | c' :: r2 => if c' = backquote then some (grp, r2) else none
        | _ => none
    else none
  | _ => none

/-- `\*+` replaced by the empty string (remaining asterisks). -/
def matchStarRun (l : List Char) : Option (List Char × List Char) :=
  match l with
  | '*' :: r1 => some ([], r1.dropWhile (· = '*'))
  | _ => none

/-- `#+\s*` replaced by the empty string (markdown headers). -/
def matchHeaderRun (l : List Char) : Option (List Char × List Char) :=
  match l with
  | '#' :: r1 => some ([], (r1.dropWhile (· = '#')).dropWhile isPySpace)
  | _ => none

/-- `\s+` replaced by a single space (collapse whitespace). -/
def matchSpaceRun (l : List Char) : Option (List Char × List Char) :=
  match l with
  | c :: r1 =>
    if isPySpace c then some ([' '], r1.dropWhile isPySpace) else none
  | _ => none

/-- `TTSEngine.clean_text_for_tts`: the source's substitution chain in
order, followed by `strip()`. -/
def clean_text_for_tts (text : List Char) : List Char :=
  let text := reSub (matchBrokenSsmlStars "prosody".data) text
  let text := reSub (matchBrokenSsmlStars "procity".data) text
  let text := reSub (matchXmlTag "prosody".data) text
  let text := reSub (matchXmlTag "speak".data) text
  let text := reSub matchBold text
  let text := reSub matchItalic text
  let text := reSub matchCodeSpan text
  let text := reSub matchStarRun text
  let text := reSub matchHeaderRun text
  let text := reSub matchSpaceRun text
  pyStrip text

/-! ## TTS backends and factory (src/tts/)

What each backend hands to its underlying synthesis engine:

* `PiperTTS.synthesize` builds the subprocess argument list
  `["piper", "--model", model_path, "--output_file", str(output_path),
  "--text", text]`, extended with `["--length_scale", str(speed_scale)]`
  when `speed_scale != 1.0`, and never calls `clean_text_for_tts`.
* `EdgeTTS.synthesize` computes
  `cleaned_text = self.clean_text_for_tts(text)` and constructs
  `edge_tts.Communicate(cleaned_text, voice)`.
* `OpenAITTS.synthesize` and `CoquiTTS.synthesize` pass `text` through
  unmodified (`input=text` / `tts_to_file(text=text, …)`). -/

/-- An element of the `piper` subprocess argument list: a string, or the
stringified `speed_scale` float (kept symbolic as a rational). -/
inductive PiperArg where
  | lit : List Char → PiperArg
  | num : ℚ → PiperArg
  deriving DecidableEq

/-- The command `PiperTTS.synthesize` runs. -/
def piperSynthesizeCmd (modelPath outputPath text : List Char)
    (speedScale : ℚ) : List PiperArg :=
  [.lit "piper".data, .lit "--model".data, .lit modelPath,
   .lit "--output_file".data, .lit outputPath,
   .lit "--text".data, .lit text] ++
  (if speedScale = 1 then []
   else [.lit "--length_scale".data, .num speedScale])

/-- The argument following a given flag in an argument list. -/
def argAfter (flag : List Char) : List PiperArg → Option PiperArg
  | [] => none
  | .lit f :: rest => if f == flag then rest.head? else argAfter flag rest
  | _ :: rest => argAfter flag rest

/-- The text `EdgeTTS.synthesize` hands to `edge_tts.Communicate`. -/
def edgeCommunicateText (text : List Char) : List Char :=
  clean_text_for_tts text

/-- The text `OpenAITTS.synthesize` hands to the speech API
(`input=text`). -/
def openaiEngineText (text : List Char) : List Char := text

/-- The text `CoquiTTS.synthesize` hands to `tts_to_file`
(`text=text`). -/
def coquiEngineText (text : List Char) : List Char := text

/-- The engines `TTSFactory` can produce: the four registered classes
plus the five legacy wrappers of `_create_legacy_engine`. -/
inductive Engine where
  | piper | edge | openai | coqui | say | sapi | espeak | fish | bark
  deriving DecidableEq

/-- `TTSFactory.create_engine`: registry lookup, then the legacy
fallback, else `ValueError(f"Unknown TTS engine: {engine_name}")`
(modelled as `Except.error`). -/
def create_engine (engineName : List Char) : Except Unit Engine :=
  if engineName == "piper".data then .ok .piper
  else if engineName == "edge".data then .ok .edge
  else if engineName == "openai".data then .ok .openai
  else if engineName == "coqui".data then .ok .coqui
  else if engineName == "say".data then .ok .say
  else if engineName == "sapi".data then .ok .sapi
  else if engineName == "espeak".data then .ok .espeak
  else if engineName == "fish".data then .ok .fish
  else if engineName == "bark".data then .ok .bark
  else .error ()

/-! ## Piper voice download and cache (src/tts/piper.py)

The file system is a finite map from paths to file contents, where a
content is the list of chunks written so far.  Network behaviour is a
function from URL to `NetResult`:

* `httpError` — `requests.get`/`raise_for_status` raises before the
  output file is opened, so nothing is written;
* `ok chunks` — the whole body streams successfully;
* `interrupted delivered` — the transfer raises after `open(path,"wb")`
  has created (truncated) the file and `delivered` chunks were written.

`_download_file` writes directly to the final cache path (`open(
output_path, "wb")` with no temporary file), which is exactly the
behaviour under scrutiny in the download claims. -/

/-- A file path (Python string). -/
abbrev FilePath' := List Char

/-- A chunk of downloaded bytes. -/
abbrev Chunk := List Nat

/-- The cache directory: a finite map path ↦ written chunks. -/
abbrev FS := List (FilePath' × List Chunk)

/-- `Path.exists()`. -/
def fsExists (p : FilePath') (fs : FS) : Bool := fs.any (fun e => e.1 == p)

/-- `open(p, "wb")` followed by writing `content`: truncate/create `p`. -/
def fsSet (p : FilePath') (content : List Chunk) (fs : FS) : FS :=
  (p, content) :: fs.filter (fun e => !(e.1 == p))

/-- Behaviour of the network for one `requests.get(url, stream=True)`. -/
inductive NetResult where
  | httpError
  | ok (chunks : List Chunk)
  | interrupted (delivered : List Chunk)

/-- A network: what each URL answers. -/
abbrev Net := FilePath' → NetResult

/-- `PiperTTS._download_file`: `raise_for_status`, then stream chunks to
the final path, skipping empty chunks (`if chunk:`).  Returns the new
file system and whether the download completed (an exception propagates
as `false`). -/
def download_file (net : Net) (url out : FilePath') (fs : FS) : FS × Bool :=
  match net url with
  | .httpError => (fs, false)
  | .ok cs => (fsSet out (cs.filter (fun c => !c.isEmpty)) fs, true)
  | .interrupted cs => (fsSet out (cs.filter (fun c => !c.isEmpty)) fs, false)

/-- `str.replace(old, new)` (all occurrences), with fuel. -/
def pyReplaceAux (old new : List Char) : Nat → List Char → List Char
  | 0, l => l
  | _ + 1, [] => []
  | fuel + 1, c :: cs =>
    if old.isPrefixOf (c :: cs) && !old.isEmpty then
      new ++ pyReplaceAux old new fuel ((c :: cs).drop old.length)
    else c :: pyReplaceAux old new fuel cs

/-- `str.replace(old, new)` for non-empty `old`. -/
def pyReplace (old new l : List Char) : List Char :=
  pyReplaceAux old new l.length l

/-- `str.rsplit("-", 1)`: split at the last dash, 1 or 2 parts. -/
def rsplitDash1 (l : List Char) : List (List Char) :=
  let revSuffix := l.reverse.takeWhile (· ≠ '-')
  match l.reverse.dropWhile (· ≠ '-') with
  | [] => [l]
  | _ :: before => [before.reverse, revSuffix.reverse]

/-- `PIPER_BASE_URL` from config/settings.py. -/
def PIPER_BASE_URL : List Char :=
  "https://huggingface.co/rhasspy/piper-voices/resolve/main".data

/-- The voice-name parsing of `_download_voice`: an `en_US-`/`en_GB-`
prefix yields `(lang_path, voice_id, quality)` (quality defaulting to
`medium`); any other name is the
`ValueError(f"Unsupported voice format: …")` branch (`none`), raised
before any network call. -/
def parseVoiceSegments (voiceName : List Char) :
    Option (List Char × List Char × List Char) :=
  if "en_US-".data.isPrefixOf voiceName then
    match rsplitDash1 (pyReplace "en_US-".data [] voiceName) with
    | [vid, quality] => some ("en/en_US".data, vid, quality)
    | [vid] => some ("en/en_US".data, vid, "medium".data)
    | _ => none
  else if "en_GB-".data.isPrefixOf voiceName then
    match rsplitDash1 (pyReplace "en_GB-".data [] voiceName) with
    | [vid, quality] => some ("en/en_GB".data, vid, quality)
    | [vid] => some ("en/en_GB".data, vid, "medium".data)
    | _ => none
  else none

/-- `self.data_dir / f"{voice_name}.onnx"`. -/
def onnxPath (dataDir voiceName : List Char) : FilePath' :=
  dataDir ++ "/".data ++ voiceName ++ ".onnx".data

/-- `self.data_dir / f"{voice_name}.onnx.json"`. -/
def jsonPath (dataDir voiceName : List Char) : FilePath' :=
  dataDir ++ "/".data ++ voiceName ++ ".onnx.json".data

/-- The model-file download URL built by `_download_voice`. -/
def onnxUrl (voiceName : List Char)
    (seg : List Char × List Char × List Char) : FilePath' :=
  PIPER_BASE_URL ++ "/".data ++ seg.1 ++ "/".data ++ seg.2.1 ++ "/".data ++
    seg.2.2 ++ "/".data ++ voiceName ++ ".onnx".data

/-- The config-file download URL built by `_download_voice`. -/
def jsonUrl (voiceName : List Char)
    (seg : List Char × List Char × List Char) : FilePath' :=
  PIPER_BASE_URL ++ "/".data ++ seg.1 ++ "/".data ++ seg.2.1 ++ "/".data ++
    seg.2.2 ++ "/".data ++ voiceName ++ ".onnx.json".data

/-- `PiperTTS._download_voice`: parse the name (or fail with no network
call), download the model file, then the config file, each directly to
its final cache path; any failure re-raises (`none`) after the writes
performed so far. -/
def download_voice (net : Net) (dataDir voiceName : List Char) (fs : FS) :
    FS × Option FilePath' :=
  match parseVoiceSegments voiceName with
  | none => (fs, none)
  | some seg =>
    match download_file net (onnxUrl voiceName seg)
        (onnxPath dataDir voiceName) fs with
    | (fs1, false) => (fs1, none)
    | (fs1, true) =>
      match download_file net (jsonUrl voiceName seg)
          (jsonPath dataDir voiceName) fs1 with
      | (fs2, false) => (fs2, none)
      | (fs2, true) => (fs2, some (onnxPath dataDir voiceName))

/-- `PiperTTS._ensure_voice_available`: if both sibling files exist the
cached model path is returned with no network activity; otherwise
`_download_voice` runs.  The `Nat` counts `_download_voice`
invocations. -/
def ensure_voice_available (net : Net) (dataDir voiceName : List Char)
    (fs : FS) : FS × Option FilePath' × Nat :=
  if fsExists (onnxPath dataDir voiceName) fs &&
     fsExists (jsonPath dataDir voiceName) fs then
    (fs, some (onnxPath dataDir voiceName), 0)
  else
    match download_voice net dataDir voiceName fs with
    | (fs1, r) => (fs1, r, 1)

/-- The two-sibling-files existence check (the cache-hit test of
`_ensure_voice_available`, also used by `_predownload_piper_voices`). -/
def voiceCachePresent (dataDir voiceName : List Char) (fs : FS) : Bool :=
  fsExists (onnxPath dataDir voiceName) fs &&
  fsExists (jsonPath dataDir voiceName) fs

/-! ## AudioProcessor (src/core/audio_processor.py) -/

/-- Association-list lookup, modelling Python `dict.get` (dict keys are
unique, so first-match lookup agrees). -/
def alookup {β : Type} (l : List (List Char × β)) (k : List Char) :
    Option β :=
  match l with
  | [] => none
  | (k', v) :: t => if k' == k then some v else alookup t k

/-- Errors `_generate_audio_clips` can raise: the ValueError naming a
speaker with no voice specified, the unknown-TTS-engine ValueError from
the factory, and the RuntimeError for no generated clips. -/
inductive AudioError where
  | noVoice (speaker : List Char)
  | unknownEngine (engineName : List Char)
  | noClips
  deriving DecidableEq

/-- One recorded backend synthesis call: engine, voice, text. -/
abbrev SynthCall := Engine × List Char × List Char

/-- The speaker's voice entry is missing or falsy (`if not voice:`
catches both `None` and the empty string). -/
def noVoiceFor (speakerVoices : List (List Char × List Char))
    (speaker : List Char) : Bool :=
  match alookup speakerVoices speaker with
  | none => true
  | some v => v.isEmpty

/-- The loop body of `_generate_audio_clips`: per line, look up the
voice, compute `engine_name = speaker_engines.get(speaker, "piper")`,
raise if the voice is falsy, create the engine, synthesize (modelled by
`f`, which also receives the threaded `speed_scale`), and collect the
clip.  The second component is the trace of synthesis calls made, in
order. -/
def generate_audio_clips_aux {γ : Type}
    (f : Engine → List Char → List Char → ℚ → γ)
    (speakerVoices speakerEngines : List (List Char × List Char))
    (speedScale : ℚ) :
    List (List Char × List Char) → Except AudioError (List γ) × List SynthCall
  | [] => (.ok [], [])
  | (speaker, text) :: rest =>
    let engineName := (alookup speakerEngines speaker).getD "piper".data
    match alookup speakerVoices speaker with
    | none => (.error (.noVoice speaker), [])
    | some voice =>
      if voice.isEmpty then (.error (.noVoice speaker), [])
      else
        match create_engine engineName with
        | .error _ => (.error (.unknownEngine engineName), [])
        | .ok eng =>
          let clip := f eng voice text speedScale
          match generate_audio_clips_aux f speakerVoices speakerEngines
              speedScale rest with
          | (.ok clips, calls) => (.ok (clip :: clips), (eng, voice, text) :: calls)
          | (.error e, calls) => (.error e, (eng, voice, text) :: calls)

/-- `_generate_audio_clips`: run the loop, then raise `RuntimeError`
when no clips were produced.  (The temp-directory bookkeeping and
progress bar are I/O only.) -/
def generate_audio_clips {γ : Type}
    (f : Engine → List Char → List Char → ℚ → γ)
    (dialogueLines : List (List Char × List Char))
    (speakerVoices speakerEngines : List (List Char × List Char))
    (speedScale : ℚ) : Except AudioError (List γ) × List SynthCall :=
  match generate_audio_clips_aux f speakerVoices speakerEngines speedScale
      dialogueLines with
  | (.ok clips, calls) =>
    (if clips.isEmpty then .error .noClips else .ok clips, calls)
  | r => r

/-- Insertion into the Python `set` of `_predownload_piper_voices`
(iteration order of a set is immaterial for the claims; membership is
what matters). -/
def setInsert (v : List Char) (s : List (List Char)) : List (List Char) :=
  if s.contains v then s else s ++ [v]

/-- Loop body of `_predownload_piper_voices`: a `(speaker, voice)` item
contributes `voice` when `speaker_engines.get(speaker, "piper")` is
`"piper"` and the voice's `.onnx` file does not yet exist. -/
def predownloadStep (speakerEngines : List (List Char × List Char))
    (dataDir : List Char) (fs : FS)
    (acc : List (List Char)) (sv : List Char × List Char) :
    List (List Char) :=
  if ((alookup speakerEngines sv.1).getD "piper".data == "piper".data) &&
      !fsExists (onnxPath dataDir sv.2) fs then
    setInsert sv.2 acc
  else acc

/-- The `piper_voices_to_download` set of `_predownload_piper_voices`. -/
def predownload_piper_voices
    (speakerVoices speakerEngines : List (List Char × List Char))
    (dataDir : List Char) (fs : FS) : List (List Char) :=
  speakerVoices.foldl (predownloadStep speakerEngines dataDir fs) []

/-- `_combine_audio_clips`: start from `clips[0]` (an `IndexError`,
here `none`, on an empty list) and `+=` each following clip.  A pydub
`AudioSegment` is modelled as its sample list; `+` is concatenation and
`len` (duration) is the sample count. -/
def combine_audio_clips {γ : Type} :
    List (List γ) → Option (List γ)
  | [] => none
  | c :: rest => some (rest.foldl (· ++ ·) c)

/-! ## Helper lemmas -/

/-- A pattern attempt only accepts speakers from `expected`. -/
theorem applyPattern_speaker_mem {p : List Char → Option (List Char × List Char)}
    {line : List Char} {expected : List (List Char)} {sp tx : List Char}
    (h : applyPattern p line expected = some (sp, tx)) : sp ∈ expected := by
  unfold applyPattern at h
  split at h
  · exact absurd h (by simp)
  · simp only at h
    split at h
    · split at h
      · rename_i hc _
        cases h
        simpa using hc
      · exact absurd h (by simp)
    · exact absurd h (by simp)

/-- The pattern loop only accepts speakers from `expected`. -/
theorem matchLine_speaker_mem {line : List Char} {expected : List (List Char)}
    {sp tx : List Char}
    (h : matchLine line expected = some (sp, tx)) : sp ∈ expected := by
  unfold matchLine at h
  split at h
  · rename_i h1
    cases h
    exact applyPattern_speaker_mem h1
  · split at h
    · rename_i h2
      cases h
      exact applyPattern_speaker_mem h2
    · exact applyPattern_speaker_mem h

/-- Every pair collected by the line loop comes from the accumulator or
was accepted by the pattern loop. -/
theorem mem_foldl_parseStep {expected : List (List Char)}
    (ls : List (List Char)) (acc : List (List Char × List Char))
    {q : List Char × List Char}
    (h : q ∈ ls.foldl (parseStep expected) acc) :
    q ∈ acc ∨ q.1 ∈ expected := by
  induction ls generalizing acc with
  | nil => exact Or.inl h
  | cons l t ih =>
    rcases ih (parseStep expected acc l) h with h' | h'
    · unfold parseStep at h'
      split at h'
      · exact Or.inl h'
      · split at h'
        · exact Or.inl h'
        · split at h'
          · rename_i r hm
            rcases List.mem_append.1 h' with h'' | h''
            · exact Or.inl h''
            · have hq : q = r := List.mem_singleton.1 h''
              subst hq
              rcases hr : q with ⟨sp, tx⟩
              subst hr
              exact Or.inr (matchLine_speaker_mem hm)
          · exact Or.inl h'
    · exact Or.inr h'

/-! ## Claim theorems -/

/-- C4: `validate_and_preview_script` raises the no-dialogue error
(returns `none`) exactly when the parsed result is empty; whenever it
returns, the returned sequence is non-empty. -/
theorem validate_raises_iff_empty (script : List Char)
    (expected : List (List Char)) :
    (validate_and_preview_script script expected = none ↔
      parseDialogueLines script expected = []) ∧
    ∀ ls, validate_and_preview_script script expected = some ls →
      ls ≠ [] := by
  unfold validate_and_preview_script
  rcases hd : parseDialogueLines script expected with _ | ⟨a, t⟩
  · simp
  · simp

/-- Witness for C4 at a concrete script: the parse is non-empty, the
function returns it, and the returned list is non-empty. -/
theorem validate_raises_iff_empty_witness :
    validate_and_preview_script "GUEST: Hello there today".data
        ["GUEST".data] = some [("GUEST".data, "Hello there today".data)] ∧
    [("GUEST".data, "Hello there today".data)] ≠
      ([] : List (List Char × List Char)) :=
  ⟨by decide,
   (validate_raises_iff_empty "GUEST: Hello there today".data
      ["GUEST".data]).2 _ (by decide)⟩

/-- C5: speaker closure — every pair extracted by the parser has its
speaker in the caller-supplied expected-speakers list; non-member
matches are dropped, never returned. -/
theorem extracted_speakers_subset_expected (script : List Char)
    (expected : List (List Char)) :
    ∀ q ∈ parseDialogueLines script expected, q.1 ∈ expected := by
  intro q hq
  rcases mem_foldl_parseStep (pySplitlines script) [] hq with h | h
  · cases h
  · exact h

/-- Witness for C5: at a concrete script the extracted pair's speaker is
a member of the expected list. -/
theorem extracted_speakers_subset_expected_witness :
    ("HOST".data, "Greetings all".data) ∈
      parseDialogueLines "HOST: Greetings all\nNARRATOR: Dropped words".data
        ["HOST".data] ∧
    "HOST".data ∈ ["HOST".data] :=
  ⟨by decide,
   extracted_speakers_subset_expected
     "HOST: Greetings all\nNARRATOR: Dropped words".data ["HOST".data]
     ("HOST".data, "Greetings all".data) (by decide)⟩

/-- C6: skip correctness at the spec's concrete inputs — the code-fence
line yields no dialogue line, and `"HOST: Welcome!"` with expected
speakers `{"HOST"}` yields exactly `("HOST", "Welcome!")`. -/
theorem skip_correctness_concrete :
    parseDialogueLines "``` def f(): return 1".data ["HOST".data] = [] ∧
    validate_and_preview_script "HOST: Welcome!".data ["HOST".data] =
      some [("HOST".data, "Welcome!".data)] := by
  exact ⟨by decide, by decide⟩

/-- C7: prefix cleaning — the matched remainder of
`"HOST: text: Hello there"` has its `"text:"` boilerplate prefix
stripped, yielding `"Hello there"`; the first matching entry of the
ordered prefix list is the one removed. -/
theorem prefix_cleaning_concrete :
    cleanDialogueText "text: Hello there".data = "Hello there".data ∧
    validate_and_preview_script "HOST: text: Hello there".data
        ["HOST".data] =
      some [("HOST".data, "Hello there".data)] := by
  exact ⟨by decide, by decide⟩

/-- Folding list concatenation from a seed is the seed followed by the
join of the folded lists. -/
theorem foldl_append_eq_join {γ : Type} (rest : List (List γ))
    (c : List γ) :
    rest.foldl (· ++ ·) c = c ++ rest.flatten := by
  induction rest generalizing c with
  | nil => simp
  | cons r t ih => simp [ih, List.append_assoc]

/-- C9: combining a non-empty clip list concatenates the clips exactly
in list order with nothing inserted, so the combined sample sequence is
the flattening of the inputs and the combined duration (sample count) is the
sum of the individual durations. -/
theorem combine_clips_order_and_duration {γ : Type}
    (clips : List (List γ)) (h : clips ≠ []) :
    ∃ out, combine_audio_clips clips = some out ∧ out = clips.flatten ∧
      out.length = (clips.map List.length).sum := by
  cases clips with
  | nil => cases h rfl
  | cons c rest =>
    have hj : rest.foldl (· ++ ·) c = (c :: rest).flatten := by
      rw [foldl_append_eq_join]; simp
    exact ⟨rest.foldl (· ++ ·) c, rfl, hj, by rw [hj, List.length_flatten]⟩

/-- Witness for C9 at the spec's concrete durations (1, 2 and 3 samples,
standing for the 1 s, 2 s, 3 s clips): the combined output is the
in-order concatenation and its duration is 6. -/
theorem combine_clips_order_and_duration_witness :
    (∃ out, combine_audio_clips ([[1], [2, 2], [3, 3, 3]] : List (List ℕ)) =
        some out ∧ out = [[1], [2, 2], [3, 3, 3]].flatten ∧
        out.length = ([[1], [2, 2], [3, 3, 3]].map List.length).sum) ∧
    combine_audio_clips ([[1], [2, 2], [3, 3, 3]] : List (List ℕ)) =
      some [1, 2, 2, 3, 3, 3] ∧
    ([[1], [2, 2], [3, 3, 3]].map List.length).sum = 6 :=
  ⟨combine_clips_order_and_duration _ (by decide), by decide, by decide⟩

/-- Membership survives `setInsert`. -/
theorem mem_setInsert_of_mem (v w : List Char) (s : List (List Char))
    (h : v ∈ s) : v ∈ setInsert w s := by
  unfold setInsert
  split
  · exact h
  · exact List.mem_append_left _ h

/-- The inserted element is a member after `setInsert`. -/
theorem mem_setInsert_self (v : List Char) (s : List (List Char)) :
    v ∈ setInsert v s := by
  unfold setInsert
  split
  · rename_i hc
    simpa using hc
  · exact List.mem_append_right _ (List.mem_singleton.2 rfl)

/-- The pre-download fold never loses accumulated voices. -/
theorem mem_predownload_foldl_mono
    (se : List (List Char × List Char)) (dataDir : List Char) (fs : FS)
    (sv : List (List Char × List Char)) (acc : List (List Char))
    {v : List Char} (h : v ∈ acc) :
    v ∈ sv.foldl (predownloadStep se dataDir fs) acc := by
  induction sv generalizing acc with
  | nil => exact h
  | cons hd t ih =>
    apply ih
    unfold predownloadStep
    split
    · exact mem_setInsert_of_mem _ _ _ h
    · exact h

/-- A `(speaker, voice)` entry whose speaker has no engine mapping and
whose model file is absent puts `voice` into the pre-download set. -/
theorem mem_predownload_foldl
    (se : List (List Char × List Char)) (dataDir : List Char) (fs : FS)
    (sv : List (List Char × List Char)) (acc : List (List Char))
    {speaker voice : List Char}
    (hmem : (speaker, voice) ∈ sv)
    (hne : alookup se speaker = none)
    (hfs : fsExists (onnxPath dataDir voice) fs = false) :
    voice ∈ sv.foldl (predownloadStep se dataDir fs) acc := by
  induction sv generalizing acc with
  | nil => cases hmem
  | cons hd t ih =>
    rcases List.mem_cons.1 hmem with hEq | hmem'
    · rw [List.foldl_cons]
      apply mem_predownload_foldl_mono
      rw [← hEq]
      unfold predownloadStep
      rw [hne]
      simp only [hfs]
      simpa using mem_setInsert_self voice acc
    · rw [List.foldl_cons]
      exact ih _ hmem'

/-- C10: a speaker that has a voice but no engine entry silently falls
back to the `"piper"` backend everywhere: `speaker_engines.get(speaker,
"piper")` yields `"piper"`, the factory resolves it (no unknown-engine
error), the speaker's missing voice is pre-downloaded as a Piper voice,
and per-line synthesis for that speaker calls the Piper engine and
succeeds. -/
theorem default_engine_piper {γ : Type}
    (f : Engine → List Char → List Char → ℚ → γ)
    (sv se : List (List Char × List Char))
    (speaker voice text dataDir : List Char) (fs : FS) (speed : ℚ)
    (hne : alookup se speaker = none)
    (hv : alookup sv speaker = some voice)
    (hvne : voice ≠ [])
    (hmem : (speaker, voice) ∈ sv)
    (hfs : fsExists (onnxPath dataDir voice) fs = false) :
    (alookup se speaker).getD "piper".data = "piper".data ∧
    create_engine ((alookup se speaker).getD "piper".data) =
      Except.ok Engine.piper ∧
    voice ∈ predownload_piper_voices sv se dataDir fs ∧
    generate_audio_clips f [(speaker, text)] sv se speed =
      (Except.ok [f Engine.piper voice text speed],
       [(Engine.piper, voice, text)]) := by
  have h1 : (alookup se speaker).getD "piper".data = "piper".data := by
    rw [hne]; rfl
  refine ⟨h1, by rw [h1]; rfl, ?_, ?_⟩
  · exact mem_predownload_foldl se dataDir fs sv [] hmem hne hfs
  · unfold generate_audio_clips generate_audio_clips_aux
    rw [hne, hv]
    have hvempty : voice.isEmpty = false := by
      simpa [List.isEmpty_iff] using hvne
    simp [hvempty, create_engine, generate_audio_clips_aux]

/-- Witness for C10: a concrete speaker with a voice mapping but no
engine mapping is synthesized with the Piper engine and pre-downloaded
as a Piper voice. -/
theorem default_engine_piper_witness :
    "en_US-amy-medium".data ∈
      predownload_piper_voices [("HOST".data, "en_US-amy-medium".data)] []
        "/data".data [] ∧
    generate_audio_clips (fun _ _ _ _ => (0 : ℕ))
        [("HOST".data, "A warm welcome".data)]
        [("HOST".data, "en_US-amy-medium".data)] [] 1 =
      (Except.ok [0],
       [(Engine.piper, "en_US-amy-medium".data, "A warm welcome".data)]) :=
  ⟨(default_engine_piper (fun _ _ _ _ => (0 : ℕ))
      [("HOST".data, "en_US-amy-medium".data)] []
      "HOST".data "en_US-amy-medium".data "A warm welcome".data
      "/data".data [] 1 rfl rfl (by decide) (by decide) rfl).2.2.1,
   (default_engine_piper (fun _ _ _ _ => (0 : ℕ))
      [("HOST".data, "en_US-amy-medium".data)] []
      "HOST".data "en_US-amy-medium".data "A warm welcome".data
      "/data".data [] 1 rfl rfl (by decide) (by decide) rfl).2.2.2⟩

/-- C2 (amended): normalization is per-backend, not shared-by-use.
`EdgeTTS` passes every input through `clean_text_for_tts` before
handing it to the engine, but `PiperTTS` hands the raw `text` to the
`piper` subprocess as its `--text` argument, and the OpenAI and Coqui
backends also pass the text through unmodified.  (The path hypotheses
only rule out a path that is literally the string `--text`.) -/
theorem tts_normalization_per_backend
    (modelPath outputPath text : List Char) (speed : ℚ)
    (hm : modelPath ≠ "--text".data) (ho : outputPath ≠ "--text".data) :
    edgeCommunicateText text = clean_text_for_tts text ∧
    argAfter "--text".data
        (piperSynthesizeCmd modelPath outputPath text speed) =
      some (.lit text) ∧
    openaiEngineText text = text ∧
    coquiEngineText text = text := by
  refine ⟨rfl, ?_, rfl, rfl⟩
  by_cases hs : speed = 1 <;>
    simp [piperSynthesizeCmd, argAfter, beq_iff_eq, hm, ho, hs]

/-- Witness for C2's amended theorem at concrete arguments. -/
theorem tts_normalization_per_backend_witness :
    argAfter "--text".data
        (piperSynthesizeCmd "/data/en_US-amy-medium.onnx".data
          "/tmp/0000_HOST.wav".data "**bold** claim".data 1) =
      some (.lit "**bold** claim".data) :=
  (tts_normalization_per_backend "/data/en_US-amy-medium.onnx".data
    "/tmp/0000_HOST.wav".data "**bold** claim".data 1
    (by decide) (by decide)).2.1

/-- C2 counterexample: a concrete text on which the Piper backend
receives un-normalized text — the `--text` argument of the spawned
command is `"**bold**"`, while the shared normalization step would have
produced `"bold"`. -/
theorem piper_receives_unnormalized_text :
    argAfter "--text".data
        (piperSynthesizeCmd "/data/en_US-amy-medium.onnx".data
          "/tmp/0000_HOST.wav".data "**bold**".data 1) =
      some (.lit "**bold**".data) ∧
    clean_text_for_tts "**bold**".data = "bold".data ∧
    "**bold**".data ≠ "bold".data := by
  refine ⟨?_, by decide, by decide⟩
  simp [piperSynthesizeCmd, argAfter]

/-- Filtering out entries for a different path does not change an
existence test. -/
theorem fsExists_filter_ne {p q : FilePath'} (h : ¬ p = q) (fs : FS) :
    (fs.filter (fun e => !(e.1 == q))).any (fun e => e.1 == p) =
      fs.any (fun e => e.1 == p) := by
  induction fs with
  | nil => rfl
  | cons e t ih =>
    by_cases hq : e.1 = q
    · have hp : (e.1 == p) = false := by
        rw [hq]
        simp only [beq_eq_false_iff_ne, ne_eq]
        exact fun hh => h hh.symm
      have hqq : (e.1 == q) = true := by simp [beq_iff_eq, hq]
      simp [List.filter_cons, List.any_cons, hp, hqq, ih]
    · have hqf : (e.1 == q) = false := by simp [beq_iff_eq, hq]
      simp [List.filter_cons, List.any_cons, hqf, ih]

/-- A freshly written file exists. -/
theorem fsExists_fsSet_self (p : FilePath') (c : List Chunk) (fs : FS) :
    fsExists p (fsSet p c fs) = true := by
  simp [fsExists, fsSet]

/-- Writing one path does not change the existence of another. -/
theorem fsExists_fsSet_ne {p q : FilePath'} (c : List Chunk) (fs : FS)
    (h : p ≠ q) : fsExists p (fsSet q c fs) = fsExists p fs := by
  have hqp : (q == p) = false := by
    simp only [beq_eq_false_iff_ne, ne_eq]
    exact fun hh => h hh.symm
  simp [fsExists, fsSet, List.any_cons, hqp, fsExists_filter_ne h]

/-- The model path and the config path of a voice differ (their lengths
differ by the length of `".json"`). -/
theorem onnxPath_ne_jsonPath (dir voice : List Char) :
    onnxPath dir voice ≠ jsonPath dir voice := by
  intro h
  have hlen := congrArg List.length h
  simp only [onnxPath, jsonPath, List.length_append] at hlen
  have h5 : ".onnx".data.length = 5 := by decide
  have h10 : ".onnx.json".data.length = 10 := by decide
  rw [h5, h10] at hlen
  omega

/-- C8: the voice cache is idempotent with respect to the network — a
cache hit (both sibling files present) returns the cached model path
with zero downloads and an unchanged file system; two successive
resolutions of the same voice perform at most one `_download_voice`, and
exactly one when starting from a cache miss (assuming the network
serves every URL). -/
theorem voice_cache_hit_avoids_download (net : Net) (dir voice : List Char)
    (fs : FS)
    (hok : ∀ u, ∃ cs, net u = NetResult.ok cs)
    (hvalid : ∃ seg, parseVoiceSegments voice = some seg) :
    (voiceCachePresent dir voice fs = true →
      ensure_voice_available net dir voice fs =
        (fs, some (onnxPath dir voice), 0)) ∧
    (ensure_voice_available net dir voice fs).2.2 +
      (ensure_voice_available net dir voice
        (ensure_voice_available net dir voice fs).1).2.2 ≤ 1 ∧
    (voiceCachePresent dir voice fs = false →
      (ensure_voice_available net dir voice fs).2.2 = 1 ∧
      (ensure_voice_available net dir voice
        (ensure_voice_available net dir voice fs).1).2.2 = 0) := by
  obtain ⟨seg, hseg⟩ := hvalid
  obtain ⟨cs1, h1⟩ := hok (onnxUrl voice seg)
  obtain ⟨cs2, h2⟩ := hok (jsonUrl voice seg)
  have hhit : ∀ gs : FS, voiceCachePresent dir voice gs = true →
      ensure_voice_available net dir voice gs =
        (gs, some (onnxPath dir voice), 0) := by
    intro gs hgs
    unfold voiceCachePresent at hgs
    unfold ensure_voice_available
    rw [if_pos hgs]
  by_cases hp : voiceCachePresent dir voice fs = true
  · have he := hhit fs hp
    refine ⟨fun _ => he, ?_, fun hf => absurd hp (by simp [hf])⟩
    rw [he]
    have he2 := hhit fs hp
    rw [he2]
    simp
  · have hp' : voiceCachePresent dir voice fs = false := by
      cases hcp : voiceCachePresent dir voice fs
      · rfl
      · exact absurd hcp hp
    have hmiss : ensure_voice_available net dir voice fs =
        (fsSet (jsonPath dir voice) (cs2.filter (fun c => !c.isEmpty))
          (fsSet (onnxPath dir voice) (cs1.filter (fun c => !c.isEmpty)) fs),
         some (onnxPath dir voice), 1) := by
      unfold ensure_voice_available
      unfold voiceCachePresent at hp'
      rw [if_neg (by simp [hp'])]
      simp only [download_voice, hseg, download_file, h1, h2]
    have hpresent : voiceCachePresent dir voice
        (ensure_voice_available net dir voice fs).1 = true := by
      rw [hmiss]
      unfold voiceCachePresent
      rw [fsExists_fsSet_ne _ _ (onnxPath_ne_jsonPath dir voice),
        fsExists_fsSet_self, fsExists_fsSet_self]
      rfl
    refine ⟨fun hc => absurd hc (by simp [hp']), ?_, fun _ => ?_⟩
    · rw [hhit _ hpresent, hmiss]
      simp
    · exact ⟨by rw [hmiss], by rw [hhit _ hpresent]⟩

/-- Witness for C8: from an empty cache, with a network serving every
URL, two successive resolutions of `en_US-amy-medium` perform one
download then zero. -/
theorem voice_cache_hit_avoids_download_witness :
    (ensure_voice_available (fun _ => NetResult.ok [[1]]) "/data".data
        "en_US-amy-medium".data []).2.2 = 1 ∧
    (ensure_voice_available (fun _ => NetResult.ok [[1]]) "/data".data
        "en_US-amy-medium".data
        (ensure_voice_available (fun _ => NetResult.ok [[1]]) "/data".data
          "en_US-amy-medium".data []).1).2.2 = 0 :=
  (voice_cache_hit_avoids_download (fun _ => NetResult.ok [[1]])
    "/data".data "en_US-amy-medium".data []
    (fun _ => ⟨[[1]], rfl⟩)
    ⟨("en/en_US".data, "amy".data, "medium".data), by decide⟩).2.2
    (by decide)

/-- C3 (amended): starting from a cache where the config file is
absent, a failed resolution leaves the voice still absent per the
two-sibling-files existence check — unless the failure was a mid-stream
interruption of the config-file transfer (after the model file already
downloaded), which is exactly the case in which both files are left in
place and the claim fails. -/
theorem download_failure_cache_visibility (net : Net)
    (dir voice : List Char) (fs : FS)
    (hjson : fsExists (jsonPath dir voice) fs = false)
    (hfail : (ensure_voice_available net dir voice fs).2.1 = none)
    (hnotint : ∀ seg cs, parseVoiceSegments voice = some seg →
      net (jsonUrl voice seg) ≠ NetResult.interrupted cs) :
    voiceCachePresent dir voice
      (ensure_voice_available net dir voice fs).1 = false := by
  have hje := Ne.symm (onnxPath_ne_jsonPath dir voice)
  by_cases hc : (fsExists (onnxPath dir voice) fs &&
      fsExists (jsonPath dir voice) fs) = true
  · rw [Bool.and_eq_true, hjson] at hc
    exact absurd hc.2 (by simp)
  · rcases hseg : parseVoiceSegments voice with _ | seg
    · have hens : ensure_voice_available net dir voice fs =
          (fs, none, 1) := by
        unfold ensure_voice_available
        rw [if_neg hc]
        simp only [download_voice, hseg]
      rw [hens]
      unfold voiceCachePresent
      rw [hjson]
      simp
    · rcases hnet1 : net (onnxUrl voice seg) with _ | cs1 | cs1
      · have hens : ensure_voice_available net dir voice fs =
            (fs, none, 1) := by
          unfold ensure_voice_available
          rw [if_neg hc]
          simp only [download_voice, hseg, download_file, hnet1]
        rw [hens]
        unfold voiceCachePresent
        rw [hjson]
        simp
      · rcases hnet2 : net (jsonUrl voice seg) with _ | cs2 | cs2
        · have hens : ensure_voice_available net dir voice fs =
              (fsSet (onnxPath dir voice)
                (cs1.filter (fun c => !c.isEmpty)) fs, none, 1) := by
            unfold ensure_voice_available
            rw [if_neg hc]
            simp only [download_voice, hseg, download_file, hnet1, hnet2]
          rw [hens]
          unfold voiceCachePresent
          rw [fsExists_fsSet_ne _ _ hje, hjson]
          simp
        · have hens : ensure_voice_available net dir voice fs =
              (fsSet (jsonPath dir voice)
                (cs2.filter (fun c => !c.isEmpty))
                (fsSet (onnxPath dir voice)
                  (cs1.filter (fun c => !c.isEmpty)) fs),
               some (onnxPath dir voice), 1) := by
            unfold ensure_voice_available
            rw [if_neg hc]
            simp only [download_voice, hseg, download_file, hnet1, hnet2]
          rw [hens] at hfail
          cases hfail
        · exact absurd hnet2 (hnotint seg cs2 hseg)
      · have hens : ensure_voice_available net dir voice fs =
            (fsSet (onnxPath dir voice)
              (cs1.filter (fun c => !c.isEmpty)) fs, none, 1) := by
          unfold ensure_voice_available
          rw [if_neg hc]
          simp only [download_voice, hseg, download_file, hnet1]
        rw [hens]
        unfold voiceCachePresent
        rw [fsExists_fsSet_ne _ _ hje, hjson]
        simp

/-- Witness for C3's amended theorem: with a network that refuses every
request, a failed resolution from an empty cache leaves the voice
absent per the existence check. -/
theorem download_failure_cache_visibility_witness :
    voiceCachePresent "/data".data "en_US-amy-medium".data
      (ensure_voice_available (fun _ => NetResult.httpError) "/data".data
        "en_US-amy-medium".data []).1 = false :=
  download_failure_cache_visibility (fun _ => NetResult.httpError)
    "/data".data "en_US-amy-medium".data [] (by decide) (by decide)
    (fun _ _ _ h => NetResult.noConfusion h)

/-- A network behaviour under which the model file of
`en_US-amy-medium` downloads fully but the config-file transfer is
interrupted after its first chunk. -/
def c3Net : Net := fun u =>
  if u == jsonUrl "en_US-amy-medium".data
      ("en/en_US".data, "amy".data, "medium".data) then
    NetResult.interrupted [[3]]
  else NetResult.ok [[1], [2]]

/-- C3 counterexample: under `c3Net` the resolution of
`en_US-amy-medium` from an empty cache fails (raises), yet afterwards
the two-sibling-files existence check reports the voice as present —
the cache is *not* unchanged per the existence check. -/
theorem download_failure_leaves_voice_present :
    (ensure_voice_available c3Net "/data".data "en_US-amy-medium".data
        []).2.1 = none ∧
    voiceCachePresent "/data".data "en_US-amy-medium".data [] = false ∧
    voiceCachePresent "/data".data "en_US-amy-medium".data
      (ensure_voice_available c3Net "/data".data "en_US-amy-medium".data
        []).1 = true := by
  refine ⟨by decide, by decide, by decide⟩

/-- `List.findIdx` on a cons. -/
theorem findIdx_cons_eq {α : Type} (p : α → Bool) (a : α) (l : List α) :
    List.findIdx p (a :: l) =
      if p a then 0 else List.findIdx p l + 1 := by
  by_cases h : p a
  · simp [List.findIdx_cons, h]
  · simp [List.findIdx_cons, h]

/-- The loop of `_generate_audio_clips` in the presence of an unmapped
speaker: the error is raised at the first line whose voice lookup is
falsy, after one synthesis call for each preceding line. -/
theorem generate_audio_clips_aux_missing_voice {γ : Type}
    (f : Engine → List Char → List Char → ℚ → γ)
    (sv se : List (List Char × List Char)) (speed : ℚ)
    (lines : List (List Char × List Char))
    (hex : ∃ p ∈ lines, noVoiceFor sv p.1 = true)
    (heng : ∀ p ∈ lines,
      (create_engine ((alookup se p.1).getD "piper".data)).isOk = true) :
    (∃ s, (generate_audio_clips_aux f sv se speed lines).1 =
        Except.error (AudioError.noVoice s) ∧ noVoiceFor sv s = true) ∧
    (generate_audio_clips_aux f sv se speed lines).2.length =
      lines.findIdx (fun p => noVoiceFor sv p.1) := by
  induction lines with
  | nil =>
    obtain ⟨p, hp, _⟩ := hex
    cases hp
  | cons hd t ih =>
    obtain ⟨s0, t0⟩ := hd
    by_cases hnv : noVoiceFor sv s0 = true
    · rcases halk : alookup sv s0 with _ | v
      · refine ⟨⟨s0, ?_, hnv⟩, ?_⟩
        · simp [generate_audio_clips_aux, halk]
        · rw [findIdx_cons_eq]
          simp only [hnv, if_pos]
          simp [generate_audio_clips_aux, halk]
      · have hve : v.isEmpty = true := by
          unfold noVoiceFor at hnv
          rw [halk] at hnv
          exact hnv
        refine ⟨⟨s0, ?_, hnv⟩, ?_⟩
        · simp [generate_audio_clips_aux, halk, hve]
        · rw [findIdx_cons_eq]
          simp only [hnv, if_pos]
          simp [generate_audio_clips_aux, halk, hve]
    · have hnv' : noVoiceFor sv s0 = false := by
        cases hb : noVoiceFor sv s0
        · rfl
        · exact absurd hb hnv
      rcases halk : alookup sv s0 with _ | v
      · exact absurd (by unfold noVoiceFor; rw [halk]) hnv
      · have hve : v.isEmpty = false := by
          unfold noVoiceFor at hnv'
          rw [halk] at hnv'
          exact hnv'
        have hex' : ∃ p ∈ t, noVoiceFor sv p.1 = true := by
          obtain ⟨p, hp, hpv⟩ := hex
          rcases List.mem_cons.1 hp with hp | hp
          · rw [hp] at hpv
            exact absurd hpv hnv
          · exact ⟨p, hp, hpv⟩
        have heng' : ∀ p ∈ t,
            (create_engine ((alookup se p.1).getD "piper".data)).isOk =
              true :=
          fun p hp => heng p (List.mem_cons_of_mem _ hp)
        have hengHd := heng (s0, t0) (List.mem_cons_self _ _)
        obtain ⟨eng, hcrea⟩ :
            ∃ eng, create_engine ((alookup se s0).getD "piper".data) =
              Except.ok eng := by
          rcases hce : create_engine ((alookup se s0).getD "piper".data)
              with e | eng
          · rw [hce] at hengHd
            cases hengHd
          · exact ⟨eng, rfl⟩
        obtain ⟨⟨s1, herr, hs1⟩, hlen⟩ := ih hex' heng'
        rcases haux : generate_audio_clips_aux f sv se speed t
          with ⟨r, calls⟩
        rw [haux] at herr hlen
        simp only at herr hlen
        rw [herr] at haux
        refine ⟨⟨s1, ?_, hs1⟩, ?_⟩
        · simp [generate_audio_clips_aux, halk, hve, hcrea, haux]
        · rw [findIdx_cons_eq]
          simp only [hnv', if_neg]
          simp [generate_audio_clips_aux, halk, hve, hcrea, haux, hlen]

/-- C1 (amended): for every dialogue-line sequence containing a speaker
with a missing (or empty) voice mapping, `_generate_audio_clips` raises
the missing-voice error at the *first* such line, before that line's
synthesize call but after one synthesize call for each earlier line —
so the number of synthesis calls equals the index of the first unmapped
line (zero only when that line comes first), provided every engine name
in use resolves. -/
theorem generate_clips_missing_voice_lazy {γ : Type}
    (f : Engine → List Char → List Char → ℚ → γ)
    (lines : List (List Char × List Char))
    (sv se : List (List Char × List Char)) (speed : ℚ)
    (hex : ∃ p ∈ lines, noVoiceFor sv p.1 = true)
    (heng : ∀ p ∈ lines,
      (create_engine ((alookup se p.1).getD "piper".data)).isOk = true) :
    (∃ s, (generate_audio_clips f lines sv se speed).1 =
        Except.error (AudioError.noVoice s) ∧ noVoiceFor sv s = true) ∧
    (generate_audio_clips f lines sv se speed).2.length =
      lines.findIdx (fun p => noVoiceFor sv p.1) := by
  obtain ⟨⟨s, herr, hs⟩, hlen⟩ :=
    generate_audio_clips_aux_missing_voice f sv se speed lines hex heng
  rcases haux : generate_audio_clips_aux f sv se speed lines
    with ⟨r, calls⟩
  rw [haux] at herr hlen
  simp only at herr hlen
  rw [herr] at haux
  refine ⟨⟨s, ?_, hs⟩, ?_⟩
  · simp [generate_audio_clips, haux]
  · simp [generate_audio_clips, haux, hlen]

/-- Witness for C1's amended theorem at a concrete two-line dialogue
whose second speaker is unmapped. -/
theorem generate_clips_missing_voice_lazy_witness :
    (∃ s, (generate_audio_clips (fun _ _ _ _ => (0 : ℕ))
        [("HOST".data, "Hello there friends".data),
         ("GUEST".data, "Glad to be here".data)]
        [("HOST".data, "en_US-amy-medium".data)] [] 1).1 =
        Except.error (AudioError.noVoice s) ∧
        noVoiceFor [("HOST".data, "en_US-amy-medium".data)] s = true) ∧
    (generate_audio_clips (fun _ _ _ _ => (0 : ℕ))
        [("HOST".data, "Hello there friends".data),
         ("GUEST".data, "Glad to be here".data)]
        [("HOST".data, "en_US-amy-medium".data)] [] 1).2.length =
      [("HOST".data, "Hello there friends".data),
       ("GUEST".data, "Glad to be here".data)].findIdx
        (fun p => noVoiceFor [("HOST".data, "en_US-amy-medium".data)] p.1) :=
  generate_clips_missing_voice_lazy (fun _ _ _ _ => (0 : ℕ))
    [("HOST".data, "Hello there friends".data),
     ("GUEST".data, "Glad to be here".data)]
    [("HOST".data, "en_US-amy-medium".data)] [] 1
    ⟨("GUEST".data, "Glad to be here".data), by decide, by decide⟩
    (by decide)

/-- C1 counterexample: a dialogue-line sequence containing the unmapped
speaker `GUEST` on which `_generate_audio_clips` does raise the
missing-voice error, but only after one synthesis call was already made
(for the preceding mapped line) — not before any synthesize call. -/
theorem generate_clips_missing_voice_counterexample :
    (generate_audio_clips (fun _ _ _ _ => (0 : ℕ))
        [("HOST".data, "First mapped line".data),
         ("GUEST".data, "Second unmapped line".data)]
        [("HOST".data, "en_US-amy-medium".data)] [] 1).1 =
      Except.error (AudioError.noVoice "GUEST".data) ∧
    (generate_audio_clips (fun _ _ _ _ => (0 : ℕ))
        [("HOST".data, "First mapped line".data),
         ("GUEST".data, "Second unmapped line".data)]
        [("HOST".data, "en_US-amy-medium".data)] [] 1).2.length = 1 := by
  refine ⟨by rfl, by decide⟩

end Podcast
